import Mathlib

/-!
Verification development for the boringtun WireGuard tunnel engine surface of
the firezone repository.  The contract surface is the C header
`src/rust/boringtun/src/wireguard_ffi.h`; the constants, enums, struct shapes
and function signatures below are transcribed from it.  The engine behind the
header (handshake, transport codec, replay window, timers) is not part of the
source tree, so its behaviour is modelled from the specification document
(spec.md): every such definition carries a doc comment starting with
`Modelled from the spec:`.
-/

namespace Boringtun

/-- From wireguard_ffi.h line 13: `MAX_WIREGUARD_PACKET_SIZE = 65536 + 64`. -/
def MAX_WIREGUARD_PACKET_SIZE : Nat := 65536 + 64

/-- From wireguard_ffi.h lines 16-23: `enum result_type`. -/
inductive ResultType where
  | WIREGUARD_DONE
  | WRITE_TO_NETWORK
  | WIREGUARD_ERROR
  | WRITE_TO_TUNNEL_IPV4
  | WRITE_TO_TUNNEL_IPV6
  deriving DecidableEq, Repr

/-- The numeric values assigned to the enumerators in wireguard_ffi.h:
`WIREGUARD_DONE = 0, WRITE_TO_NETWORK = 1, WIREGUARD_ERROR = 2,
WRITE_TO_TUNNEL_IPV4 = 4, WRITE_TO_TUNNEL_IPV6 = 6`. -/
def ResultType.toNat : ResultType → Nat
  | .WIREGUARD_DONE => 0
  | .WRITE_TO_NETWORK => 1
  | .WIREGUARD_ERROR => 2
  | .WRITE_TO_TUNNEL_IPV4 => 4
  | .WRITE_TO_TUNNEL_IPV6 => 6

/-- From wireguard_ffi.h lines 25-29: `struct wireguard_result` is an action
tag together with a byte count. -/
structure wireguard_result where
  op : ResultType
  size : Nat
  deriving DecidableEq, Repr

/-- From wireguard_ffi.h lines 31-39: `struct stats`.  The C field
`estimated_loss` is a float; it is modelled as a natural number of
parts-per-million since no claim exercises it numerically. -/
structure stats where
  time_since_last_handshake : Int
  tx_bytes : Nat
  rx_bytes : Nat
  estimated_loss : Nat
  estimated_rtt : Int
  deriving DecidableEq, Repr

/-- From wireguard_ffi.h lines 41-44: a 32-byte x25519 key.  Bytes are
modelled as naturals below 256. -/
structure x25519_key where
  key : List Nat
  deriving DecidableEq, Repr

/-- The C types appearing in the parameter lists of the four driving
operations declared in wireguard_ffi.h. -/
inductive CType where
  | ptrTunnel
  | ptrConstU8
  | ptrU8
  | u32
  | wireguardResultStruct
  deriving DecidableEq, Repr

/-- A C function declaration: parameter type list and return type. -/
structure CDecl where
  params : List CType
  ret : CType
  deriving DecidableEq, Repr

/-- Transcribed from wireguard_ffi.h lines 86-90:
`wireguard_write(const wireguard_tunnel *, const uint8_t *src, uint32_t
src_size, uint8_t *dst, uint32_t dst_size)`. -/
def wireguard_write_decl : CDecl :=
  ⟨[.ptrTunnel, .ptrConstU8, .u32, .ptrU8, .u32], .wireguardResultStruct⟩

/-- Transcribed from wireguard_ffi.h lines 92-96:
`wireguard_read(const wireguard_tunnel *, const uint8_t *src, uint32_t
src_size, uint8_t *dst, uint32_t dst_size)`. -/
def wireguard_read_decl : CDecl :=
  ⟨[.ptrTunnel, .ptrConstU8, .u32, .ptrU8, .u32], .wireguardResultStruct⟩

/-- Transcribed from wireguard_ffi.h lines 98-100:
`wireguard_tick(const wireguard_tunnel *, uint8_t *dst, uint32_t dst_size)`.
Note: no source-buffer parameter is declared. -/
def wireguard_tick_decl : CDecl :=
  ⟨[.ptrTunnel, .ptrU8, .u32], .wireguardResultStruct⟩

/-- Transcribed from wireguard_ffi.h lines 102-104:
`wireguard_force_handshake(const wireguard_tunnel *, uint8_t *dst, uint32_t
dst_size)`.  Note: no source-buffer parameter is declared. -/
def wireguard_force_handshake_decl : CDecl :=
  ⟨[.ptrTunnel, .ptrU8, .u32], .wireguardResultStruct⟩

/-- A declaration offers a source buffer exactly when a `const uint8_t *`
parameter occurs among its parameters. -/
def hasSourceBuffer (d : CDecl) : Bool :=
  d.params.contains .ptrConstU8

/-- A `const uint8_t *` source pointer immediately followed by its `uint32_t`
size occurs in the parameter list. -/
def hasSourceBufferWithSize : List CType → Bool
  | [] => false
  | CType.ptrConstU8 :: CType.u32 :: _ => true
  | _ :: rest => hasSourceBufferWithSize rest

/-- A `uint8_t *` destination pointer immediately followed by its `uint32_t`
capacity occurs in the parameter list. -/
def hasDestBufferWithCapacity : List CType → Bool
  | [] => false
  | CType.ptrU8 :: CType.u32 :: _ => true
  | _ :: rest => hasDestBufferWithCapacity rest

/-- The standard base64 alphabet, used by the key encoding helpers declared
in wireguard_ffi.h lines 50-58. -/
def b64Alphabet : List Char :=
  String.data
    "ABCDEFGHIJKLMNOPQRSTUVWXYZabcdefghijklmnopqrstuvwxyz0123456789+/"

/-- The base64 character for a 6-bit value. -/
def b64Char (i : Nat) : Char :=
  b64Alphabet.getD i 'A'

/-- The 6-bit value of a base64 character, if it belongs to the alphabet. -/
def b64Index (c : Char) : Option Nat :=
  b64Alphabet.findIdx? (fun x => x = c)

/-- Modelled from the spec: base64 encoding of a byte string (the Rust
implementation behind `x25519_key_to_base64` is not in the source tree).
Bytes are taken in groups of three; a final group of one or two bytes is
padded with `=`. -/
def encodeB64 : List Nat → List Char
  | [] => []
  | [b1] => [b64Char (b1 / 4), b64Char (b1 % 4 * 16), '=', '=']
  | [b1, b2] =>
      [b64Char (b1 / 4), b64Char (b1 % 4 * 16 + b2 / 16),
       b64Char (b2 % 16 * 4), '=']
  | b1 :: b2 :: b3 :: rest =>
      b64Char (b1 / 4) :: b64Char (b1 % 4 * 16 + b2 / 16) ::
      b64Char (b2 % 16 * 4 + b3 / 64) :: b64Char (b3 % 64) ::
      encodeB64 rest

/-- Modelled from the spec: base64 decoding of a character string (the Rust
implementation behind `check_base64_encoded_x25519_key` is not in the source
tree).  The input must consist of four-character groups; `=` padding may
appear only at the very end, in the forms `xx==` (one byte) or `xxx=`
(two bytes).  Any other shape fails. -/
def decodeB64 : List Char → Option (List Nat)
  | [] => some []
  | c1 :: c2 :: c3 :: c4 :: rest =>
      match b64Index c1, b64Index c2 with
      | some i1, some i2 =>
          if c3 = '=' then
            if c4 = '=' then
              if rest = [] then some [i1 * 4 + i2 / 16] else none
            else none
          else if c4 = '=' then
            match b64Index c3 with
            | some i3 =>
                if rest = [] then
                  some [i1 * 4 + i2 / 16, i2 % 16 * 16 + i3 / 4]
                else none
            | none => none
          else
            match b64Index c3, b64Index c4 with
            | some i3, some i4 =>
                (decodeB64 rest).map (fun tl =>
                  (i1 * 4 + i2 / 16) :: (i2 % 16 * 16 + i3 / 4) ::
                  (i3 % 4 * 64 + i4) :: tl)
            | _, _ => none
      | _, _ => none
  | _ => none

/-- Modelled from the spec: `x25519_key_to_base64` (wireguard_ffi.h line 51)
encodes the 32 key bytes in base64; the Rust implementation is not in the
source tree. -/
def x25519_key_to_base64 (k : x25519_key) : List Char :=
  encodeB64 k.key

/-- Modelled from the spec: `check_base64_encoded_x25519_key` (wireguard_ffi.h
lines 56-58) — "true iff the string decodes to a key of the correct length and
encoding; pure validation, no side effect"; the header adds "Returns 0 if
not".  The Rust implementation is not in the source tree.  A valid x25519 key
is 32 bytes. -/
def check_base64_encoded_x25519_key (s : List Char) : Nat :=
  match decodeB64 s with
  | some k => if k.length = 32 then 1 else 0
  | none => 0

/-- Modelled from the spec: data-packet overhead on the wire (message type,
receiver session index, 8-byte counter, 16-byte authentication tag).  The
spec fixes only that a header carrying the session index and counter is
prefixed; the byte widths follow the WireGuard wire format it mirrors. -/
def DATA_OVERHEAD : Nat := 32

/-- Modelled from the spec: size in bytes of a handshake initiation message
emitted by the timer logic (the WireGuard format the spec mirrors). -/
def HANDSHAKE_INIT_SIZE : Nat := 148

/-- Modelled from the spec: width of the receive replay window ("a bounded
bitmap tracking recently accepted message counters"). -/
def REPLAY_WINDOW_SIZE : Nat := 64

/-- Modelled from the spec: the authentication tag of the AEAD construction,
a keyed function of the counter (nonce) and the ciphertext.  The real cipher
(ChaCha20-Poly1305 in the implementation the header fronts) is not in the
source tree; any injective-enough keyed tag models the authenticity check. -/
def aeadTag (key ctr : Nat) (ct : List Nat) : Nat :=
  (key + ctr * 257 + ct.foldl (fun a b => a * 311 + b) 7) % (2 ^ 64)

/-- Modelled from the spec: byte-wise keystream encryption under `key` and
counter-derived offset; invertible on bytes below 256. -/
def encByte (k b : Nat) : Nat := (b + k) % 256

/-- Modelled from the spec: inverse of `encByte` on bytes below 256. -/
def decByte (k b : Nat) : Nat := (b + 256 - k % 256) % 256

/-- Modelled from the spec: authenticated encryption of a plaintext with the
send key and the counter as nonce; returns ciphertext and tag. -/
def aeadSeal (key ctr : Nat) (pt : List Nat) : List Nat × Nat :=
  let ct := pt.map (encByte ((key + ctr) % 256))
  (ct, aeadTag key ctr ct)

/-- Modelled from the spec: authenticated decryption; fails (returns `none`)
when the tag does not match. -/
def aeadOpen (key ctr : Nat) (ct : List Nat) (tag : Nat) : Option (List Nat) :=
  if aeadTag key ctr ct = tag then
    some (ct.map (decByte ((key + ctr) % 256)))
  else none

/-- Modelled from the spec: the receive replay window — the highest counter
accepted so far and the set of accepted counters still inside the window. -/
structure ReplayState where
  highest : Nat
  seen : List Nat
  deriving DecidableEq, Repr

/-- Modelled from the spec: a counter passes the window iff it is not too far
behind the highest accepted counter and has not been accepted before. -/
def ReplayState.check (st : ReplayState) (c : Nat) : Bool :=
  decide (st.highest < c + REPLAY_WINDOW_SIZE) && !(st.seen.contains c)

/-- Modelled from the spec: accepting a counter raises the window's ceiling
and records the counter, discarding counters that fell out of the window. -/
def ReplayState.accept (st : ReplayState) (c : Nat) : ReplayState :=
  ⟨max st.highest c,
   (c :: st.seen).filter (fun x =>
     decide (max st.highest c < x + REPLAY_WINDOW_SIZE))⟩

/-- Modelled from the spec: a session — the locally-chosen index peers put on
packets addressed to us, the peer's index we put on outbound packets, the
derived symmetric key pair, the monotonically increasing send counter, and
the receive replay window. -/
structure Session where
  localIdx : Nat
  peerIdx : Nat
  sendKey : Nat
  recvKey : Nat
  sendCounter : Nat
  replay : ReplayState
  deriving DecidableEq, Repr

/-- Modelled from the spec: the session table's fixed slots — at most one
"current" session (usable for encryption) and at most one "previous" session
(still valid for decryption during a rekey transition). -/
structure SessionTable where
  current : Option Session
  previous : Option Session
  deriving DecidableEq, Repr

/-- A slot yields its session when the index matches. -/
def slotLookup (o : Option Session) (i : Nat) : Option Session :=
  match o with
  | some s => if s.localIdx = i then some s else none
  | none => none

/-- Modelled from the spec: look a session index up in the table ("returns
the session for an index, or not found"). -/
def SessionTable.lookup (tb : SessionTable) (i : Nat) : Option Session :=
  match slotLookup tb.current i with
  | some s => some s
  | none => slotLookup tb.previous i

/-- Store an updated session back into every slot holding its index. -/
def slotStore (o : Option Session) (s' : Session) : Option Session :=
  match o with
  | some s => if s.localIdx = s'.localIdx then some s' else some s
  | none => none

/-- Modelled from the spec: write an updated session back into the table. -/
def SessionTable.store (tb : SessionTable) (s' : Session) : SessionTable :=
  ⟨slotStore tb.current s', slotStore tb.previous s'⟩

/-- Modelled from the spec: the tunnel facade state — the session table and
the cumulative traffic counters surfaced through `wireguard_stats`. -/
structure Tunnel where
  table : SessionTable
  txBytes : Nat
  rxBytes : Nat
  lastHandshake : Option Nat
  now : Nat
  deriving DecidableEq, Repr

/-- Modelled from the spec: a parsed wire packet — a transport data packet
(receiver session index, counter, ciphertext, authentication tag) or a
packet whose header does not parse, of a given wire size. -/
inductive WirePacket where
  | data (receiverIdx : Nat) (counter : Nat) (ct : List Nat) (tag : Nat)
  | malformed (sz : Nat)
  deriving DecidableEq, Repr

/-- The wire size of a packet: data packets carry `DATA_OVERHEAD` bytes of
header and tag around the ciphertext. -/
def WirePacket.wireSize : WirePacket → Nat
  | .data _ _ ct _ => DATA_OVERHEAD + ct.length
  | .malformed sz => sz

/-- The counter stamped in a data packet's header (0 for malformed). -/
def WirePacket.counter : WirePacket → Nat
  | .data _ c _ _ => c
  | .malformed _ => 0

/-- Modelled from the spec: the IP version nibble of a plaintext packet (the
"inferred address family" used to tag deliveries). -/
def ipVersion (pt : List Nat) : Nat :=
  match pt with
  | [] => 0
  | b :: _ => b / 16

/-- Modelled from the spec: `write` — encrypt one outbound plaintext.
Produces an error outcome on a caller-contract violation (output exceeding
the global packet bound or the destination capacity), a no-op when no
current session exists (the host must trigger a handshake), and otherwise
increments the send counter, seals the plaintext under the send key with the
counter as nonce, stamps the peer's session index and the counter in the
header, and asks the host to send the wire bytes. -/
def Tunnel.writePacket (t : Tunnel) (src : List Nat) (dstCap : Nat) :
    Tunnel × wireguard_result × Option WirePacket :=
  if DATA_OVERHEAD + src.length > MAX_WIREGUARD_PACKET_SIZE then
    (t, ⟨.WIREGUARD_ERROR, 0⟩, none)
  else
    match t.table.current with
    | none => (t, ⟨.WIREGUARD_DONE, 0⟩, none)
    | some s =>
      if DATA_OVERHEAD + src.length > dstCap then
        (t, ⟨.WIREGUARD_ERROR, 0⟩, none)
      else
        let c := s.sendCounter + 1
        let sealed := aeadSeal s.sendKey c src
        let s' := { s with sendCounter := c }
        ({ t with
            table := t.table.store s',
            txBytes := t.txBytes + (DATA_OVERHEAD + sealed.1.length) },
         ⟨.WRITE_TO_NETWORK, DATA_OVERHEAD + sealed.1.length⟩,
         some (.data s.peerIdx c sealed.1 sealed.2))

/-- Modelled from the spec: `read` — decrypt one inbound wire packet.
Protocol-expected rejections (oversized or malformed packet, unknown session
index, authentication failure, replay-window rejection, non-IP payload)
resolve to the no-op outcome; a destination buffer too small for the
recovered plaintext is a caller-contract violation reported as the error
outcome.  On acceptance the replay window and receive counter advance and
the plaintext is delivered tagged with its IP version. -/
def Tunnel.readPacket (t : Tunnel) (p : WirePacket) (dstCap : Nat) :
    Tunnel × wireguard_result × List Nat :=
  if p.wireSize > MAX_WIREGUARD_PACKET_SIZE then
    (t, ⟨.WIREGUARD_DONE, 0⟩, [])
  else
    match p with
    | .malformed _ => (t, ⟨.WIREGUARD_DONE, 0⟩, [])
    | .data ridx ctr ct tag =>
      match t.table.lookup ridx with
      | none => (t, ⟨.WIREGUARD_DONE, 0⟩, [])
      | some s =>
        match aeadOpen s.recvKey ctr ct tag with
        | none => (t, ⟨.WIREGUARD_DONE, 0⟩, [])
        | some pt =>
          if s.replay.check ctr = false then
            (t, ⟨.WIREGUARD_DONE, 0⟩, [])
          else if dstCap < pt.length then
            (t, ⟨.WIREGUARD_ERROR, 0⟩, [])
          else
            let s' := { s with replay := s.replay.accept ctr }
            let t' := { t with
              table := t.table.store s',
              rxBytes := t.rxBytes + (DATA_OVERHEAD + ct.length) }
            if ipVersion pt = 4 then
              (t', ⟨.WRITE_TO_TUNNEL_IPV4, pt.length⟩, pt)
            else if ipVersion pt = 6 then
              (t', ⟨.WRITE_TO_TUNNEL_IPV6, pt.length⟩, pt)
            else
              (t, ⟨.WIREGUARD_DONE, 0⟩, [])

/-- Modelled from the spec: `tick` — host-polled maintenance.  When no
session is established a handshake initiation is emitted (an error outcome
if the destination buffer cannot hold it); otherwise there is nothing to
do.  The exact rekey thresholds are protocol constants the spec leaves to
the interoperability specification. -/
def Tunnel.tickRun (t : Tunnel) (dstCap : Nat) : Tunnel × wireguard_result :=
  match t.table.current with
  | none =>
      if dstCap < HANDSHAKE_INIT_SIZE then (t, ⟨.WIREGUARD_ERROR, 0⟩)
      else (t, ⟨.WRITE_TO_NETWORK, HANDSHAKE_INIT_SIZE⟩)
  | some _ => (t, ⟨.WIREGUARD_DONE, 0⟩)

/-- Modelled from the spec: `force_handshake` — bypasses the threshold
checks and initiates immediately. -/
def Tunnel.forceHandshakeRun (t : Tunnel) (dstCap : Nat) :
    Tunnel × wireguard_result :=
  if dstCap < HANDSHAKE_INIT_SIZE then (t, ⟨.WIREGUARD_ERROR, 0⟩)
  else (t, ⟨.WRITE_TO_NETWORK, HANDSHAKE_INIT_SIZE⟩)

/-- Modelled from the spec: the stats snapshot (`wireguard_stats` on a live
tunnel); the handshake age is `-1` ("never") when no handshake completed. -/
def Tunnel.statsOf (t : Tunnel) : stats :=
  { time_since_last_handshake :=
      match t.lastHandshake with
      | some h => (t.now : Int) - (h : Int)
      | none => -1,
    tx_bytes := t.txBytes,
    rx_bytes := t.rxBytes,
    estimated_loss := 0,
    estimated_rtt := -1 }

/-- Modelled from the spec: `wireguard_write` at the FFI boundary — an
invalid (null) tunnel handle is a caller-contract violation reported as the
error outcome. -/
def wireguard_write (t : Option Tunnel) (src : List Nat) (dstCap : Nat) :
    Option Tunnel × wireguard_result × Option WirePacket :=
  match t with
  | none => (none, ⟨.WIREGUARD_ERROR, 0⟩, none)
  | some tn =>
      let r := tn.writePacket src dstCap
      (some r.1, r.2.1, r.2.2)

/-- Modelled from the spec: `wireguard_read` at the FFI boundary — an
invalid (null) tunnel handle is a caller-contract violation reported as the
error outcome. -/
def wireguard_read (t : Option Tunnel) (p : WirePacket) (dstCap : Nat) :
    Option Tunnel × wireguard_result × List Nat :=
  match t with
  | none => (none, ⟨.WIREGUARD_ERROR, 0⟩, [])
  | some tn =>
      let r := tn.readPacket p dstCap
      (some r.1, r.2.1, r.2.2)

/-- Modelled from the spec: `wireguard_tick` at the FFI boundary. -/
def wireguard_tick (t : Option Tunnel) (dstCap : Nat) :
    Option Tunnel × wireguard_result :=
  match t with
  | none => (none, ⟨.WIREGUARD_ERROR, 0⟩)
  | some tn =>
      let r := tn.tickRun dstCap
      (some r.1, r.2)

/-- Modelled from the spec: `wireguard_force_handshake` at the FFI
boundary. -/
def wireguard_force_handshake (t : Option Tunnel) (dstCap : Nat) :
    Option Tunnel × wireguard_result :=
  match t with
  | none => (none, ⟨.WIREGUARD_ERROR, 0⟩)
  | some tn =>
      let r := tn.forceHandshakeRun dstCap
      (some r.1, r.2)

/-- Modelled from the spec: `wireguard_stats` at the FFI boundary. -/
def wireguard_stats (t : Option Tunnel) : stats :=
  match t with
  | none => ⟨-1, 0, 0, 0, -1⟩
  | some tn => tn.statsOf

/-- One host-driven call into the engine, for stating properties of call
sequences. -/
inductive HostOp where
  | write (src : List Nat) (cap : Nat)
  | read (p : WirePacket) (cap : Nat)
  | tick (cap : Nat)
  | forceHandshake (cap : Nat)
  deriving DecidableEq, Repr

/-- The tunnel state after one host call. -/
def Tunnel.step (t : Tunnel) : HostOp → Tunnel
  | .write src cap => (t.writePacket src cap).1
  | .read p cap => (t.readPacket p cap).1
  | .tick cap => (t.tickRun cap).1
  | .forceHandshake cap => (t.forceHandshakeRun cap).1

/-- The tunnel state after a sequence of host calls. -/
def Tunnel.run (t : Tunnel) (ops : List HostOp) : Tunnel :=
  ops.foldl Tunnel.step t

/-- Write a sequence of plaintexts, collecting the produced wire packets
(failed writes produce none). -/
def Tunnel.writeSeq (t : Tunnel) (srcs : List (List Nat)) (dstCap : Nat) :
    Tunnel × List WirePacket :=
  match srcs with
  | [] => (t, [])
  | src :: rest =>
      let r := t.writePacket src dstCap
      let tail := r.1.writeSeq rest dstCap
      (tail.1, match r.2.2 with
               | some p => p :: tail.2
               | none => tail.2)

/-- Read a sequence of wire packets, collecting the result of each call. -/
def Tunnel.readSeq (t : Tunnel) (ps : List WirePacket) (dstCap : Nat) :
    Tunnel × List wireguard_result :=
  match ps with
  | [] => (t, [])
  | p :: rest =>
      let r := t.readPacket p dstCap
      let tail := r.1.readSeq rest dstCap
      (tail.1, r.2.1 :: tail.2)

/-- A data packet sealed under `key` with counter `c` and payload `pt`,
addressed to receiver session index `idx`. -/
def mkDataPacket (key idx c : Nat) (pt : List Nat) : WirePacket :=
  .data idx c (aeadSeal key c pt).1 (aeadSeal key c pt).2

/-- The send counter of the current session (0 when none exists). -/
def Tunnel.currentCounter (t : Tunnel) : Nat :=
  match t.table.current with
  | some s => s.sendCounter
  | none => 0

/-- A concrete session as held by a sending peer (index 5, peer index 9,
send key 100, receive key 200, fresh counters). -/
def sessionA : Session := ⟨5, 9, 100, 200, 0, ⟨0, []⟩⟩

/-- The matching concrete session held by the receiving peer. -/
def sessionB : Session := ⟨9, 5, 200, 100, 0, ⟨0, []⟩⟩

/-- A tunnel holding `sessionA` as its current session. -/
def tunnelA : Tunnel := ⟨⟨some sessionA, none⟩, 0, 0, none, 0⟩

/-- A tunnel holding `sessionB` as its current session. -/
def tunnelB : Tunnel := ⟨⟨some sessionB, none⟩, 0, 0, none, 0⟩

/-- A tunnel with no sessions at all. -/
def emptyTunnel : Tunnel := ⟨⟨none, none⟩, 0, 0, none, 0⟩

/-- A tunnel whose session's replay window has advanced far past counter 1. -/
def staleTunnel : Tunnel :=
  ⟨⟨some ⟨9, 5, 200, 100, 0, ⟨200, []⟩⟩, none⟩, 0, 0, none, 0⟩

/-- The wire packet `tunnelA` produces for the plaintext [69, 1, 2, 3]
(an IPv4 version nibble followed by three bytes). -/
def samplePacket : WirePacket := mkDataPacket 100 9 1 [69, 1, 2, 3]

/-! ## Helper lemmas -/

theorem b64Index_b64Char (i : Nat) (h : i < 64) : b64Index (b64Char i) = some i := by
  have key : ∀ j : Fin 64, b64Index (b64Char j.1) = some j.1 := by decide
  exact key ⟨i, h⟩

theorem b64Char_ne_pad (i : Nat) (h : i < 64) : ¬ (b64Char i = '=') := by
  have key : ∀ j : Fin 64, ¬ (b64Char j.1 = '=') := by decide
  exact key ⟨i, h⟩

/-- Base64 decoding inverts base64 encoding on byte strings. -/
theorem decodeB64_encodeB64 :
    ∀ (k : List Nat), (∀ b ∈ k, b < 256) → decodeB64 (encodeB64 k) = some k
  | [], _ => by simp [encodeB64, decodeB64]
  | [b1], h => by
      have h1 : b1 < 256 := h b1 (by simp)
      have e1 := b64Index_b64Char (b1 / 4) (by omega)
      have e2 := b64Index_b64Char (b1 % 4 * 16) (by omega)
      simp only [encodeB64, decodeB64, e1, e2]
      simp only [if_pos rfl, reduceIte]
      simp only [Option.some.injEq, List.cons.injEq, and_true]
      omega
  | [b1, b2], h => by
      have h1 : b1 < 256 := h b1 (by simp)
      have h2 : b2 < 256 := h b2 (by simp)
      have e1 := b64Index_b64Char (b1 / 4) (by omega)
      have e2 := b64Index_b64Char (b1 % 4 * 16 + b2 / 16) (by omega)
      have e3 := b64Index_b64Char (b2 % 16 * 4) (by omega)
      have n3 := b64Char_ne_pad (b2 % 16 * 4) (by omega)
      simp only [encodeB64, decodeB64, e1, e2, e3, if_neg n3, if_pos rfl, reduceIte]
      simp only [Option.some.injEq, List.cons.injEq, and_true]
      exact ⟨by omega, by omega⟩
  | b1 :: b2 :: b3 :: b4 :: rest, h => by
      have h1 : b1 < 256 := h b1 (by simp)
      have h2 : b2 < 256 := h b2 (by simp)
      have h3 : b3 < 256 := h b3 (by simp)
      have ih := decodeB64_encodeB64 (b4 :: rest)
        (fun b hb => h b (by simp at hb ⊢; tauto))
      have e1 := b64Index_b64Char (b1 / 4) (by omega)
      have e2 := b64Index_b64Char (b1 % 4 * 16 + b2 / 16) (by omega)
      have e3 := b64Index_b64Char (b2 % 16 * 4 + b3 / 64) (by omega)
      have e4 := b64Index_b64Char (b3 % 64) (by omega)
      have n3 := b64Char_ne_pad (b2 % 16 * 4 + b3 / 64) (by omega)
      have n4 := b64Char_ne_pad (b3 % 64) (by omega)
      simp only [encodeB64, decodeB64, e1, e2, e3, e4, if_neg n3, if_neg n4, ih,
        Option.map_some', Option.some.injEq, List.cons.injEq]
      exact ⟨by omega, by omega, by omega, trivial⟩
  | [b1, b2, b3], h => by
      have h1 : b1 < 256 := h b1 (by simp)
      have h2 : b2 < 256 := h b2 (by simp)
      have h3 : b3 < 256 := h b3 (by simp)
      have ih : decodeB64 (encodeB64 ([] : List Nat)) = some [] := by
        simp [encodeB64, decodeB64]
      have e1 := b64Index_b64Char (b1 / 4) (by omega)
      have e2 := b64Index_b64Char (b1 % 4 * 16 + b2 / 16) (by omega)
      have e3 := b64Index_b64Char (b2 % 16 * 4 + b3 / 64) (by omega)
      have e4 := b64Index_b64Char (b3 % 64) (by omega)
      have n3 := b64Char_ne_pad (b2 % 16 * 4 + b3 / 64) (by omega)
      have n4 := b64Char_ne_pad (b3 % 64) (by omega)
      simp only [encodeB64, decodeB64, e1, e2, e3, e4, if_neg n3, if_neg n4, ih,
        Option.map_some', Option.some.injEq, List.cons.injEq, and_true]
      exact ⟨by omega, by omega, by omega⟩

theorem decByte_encByte (k b : Nat) (h : b < 256) : decByte k (encByte k b) = b := by
  unfold decByte encByte
  omega

theorem map_decByte_encByte (k : Nat) (pt : List Nat) (h : ∀ b ∈ pt, b < 256) :
    (pt.map (encByte k)).map (decByte k) = pt := by
  induction pt with
  | nil => simp
  | cons a l ih =>
      have ha : a < 256 := h a (by simp)
      have hl : ∀ b ∈ l, b < 256 := fun b hb => h b (by simp [hb])
      simp [decByte_encByte k a ha, ih hl]

theorem aeadOpen_aeadSeal (key ctr : Nat) (pt : List Nat) (h : ∀ b ∈ pt, b < 256) :
    aeadOpen key ctr (aeadSeal key ctr pt).1 (aeadSeal key ctr pt).2 = some pt := by
  unfold aeadOpen aeadSeal
  simp [map_decByte_encByte _ pt h]

theorem aeadSeal_length (key ctr : Nat) (pt : List Nat) :
    (aeadSeal key ctr pt).1.length = pt.length := by
  simp [aeadSeal]

theorem aeadOpen_length (key ctr : Nat) (ct : List Nat) (tag : Nat) (pt : List Nat)
    (h : aeadOpen key ctr ct tag = some pt) : pt.length = ct.length := by
  unfold aeadOpen at h
  by_cases htag : aeadTag key ctr ct = tag
  · rw [if_pos htag] at h
    cases h
    simp
  · rw [if_neg htag] at h
    cases h

theorem ReplayState.accept_highest (st : ReplayState) (c : Nat) :
    (st.accept c).highest = max st.highest c := rfl

theorem ReplayState.mem_accept_seen (st : ReplayState) (c x : Nat)
    (h : x ∈ (st.accept c).seen) : x = c ∨ x ∈ st.seen := by
  unfold ReplayState.accept at h
  simp only [List.mem_filter, List.mem_cons] at h
  tauto

theorem ReplayState.accept_check_self (st : ReplayState) (c : Nat) :
    (st.accept c).check c = false := by
  unfold ReplayState.check
  by_cases hw : (st.accept c).highest < c + REPLAY_WINDOW_SIZE
  · have hmem : c ∈ (st.accept c).seen := by
      unfold ReplayState.accept
      simp only [List.mem_filter, List.mem_cons, decide_eq_true_eq]
      exact ⟨by simp, by simpa [ReplayState.accept] using hw⟩
    simp [hw, hmem]
  · simp [hw]

theorem SessionTable.lookup_current (tb : SessionTable) (s : Session)
    (h : tb.current = some s) : tb.lookup s.localIdx = some s := by
  unfold SessionTable.lookup slotLookup
  rw [h]
  simp

theorem SessionTable.lookup_store_self (tb : SessionTable) (s s' : Session) (i : Nat)
    (h : tb.lookup i = some s) (hidx : s'.localIdx = s.localIdx) :
    (tb.store s').lookup i = some s' := by
  unfold SessionTable.lookup slotLookup at h
  unfold SessionTable.store SessionTable.lookup slotStore slotLookup
  cases hc : tb.current with
  | none =>
      rw [hc] at h
      simp only at h
      cases hp : tb.previous with
      | none => rw [hp] at h; simp at h
      | some sp =>
          rw [hp] at h
          simp only at h
          by_cases hi : sp.localIdx = i
          · rw [if_pos hi] at h
            cases h
            simp [hidx, hi]
          · rw [if_neg hi] at h
            simp at h
  | some sc =>
      rw [hc] at h
      simp only at h
      by_cases hi : sc.localIdx = i
      · rw [if_pos hi] at h
        cases h
        simp [hidx, hi]
      · rw [if_neg hi] at h
        cases hp : tb.previous with
        | none => rw [hp] at h; simp at h
        | some sp =>
            rw [hp] at h
            simp only at h
            by_cases hi2 : sp.localIdx = i
            · rw [if_pos hi2] at h
              cases h
              by_cases hci : sc.localIdx = s.localIdx
              · simp [hidx, hi, hi2, hci]
              · simp [hidx, hi, hi2, hci]
            · rw [if_neg hi2] at h
              simp at h

theorem Tunnel.writePacket_success (t : Tunnel) (s : Session) (src : List Nat)
    (cap : Nat)
    (hcur : t.table.current = some s)
    (hmax : DATA_OVERHEAD + src.length ≤ MAX_WIREGUARD_PACKET_SIZE)
    (hcap : DATA_OVERHEAD + src.length ≤ cap) :
    t.writePacket src cap =
      ({ t with
          table := t.table.store { s with sendCounter := s.sendCounter + 1 },
          txBytes := t.txBytes + (DATA_OVERHEAD + src.length) },
       ⟨.WRITE_TO_NETWORK, DATA_OVERHEAD + src.length⟩,
       some (mkDataPacket s.sendKey s.peerIdx (s.sendCounter + 1) src)) := by
  have hg : ¬ (DATA_OVERHEAD + src.length > MAX_WIREGUARD_PACKET_SIZE) := by omega
  have hc : ¬ (DATA_OVERHEAD + src.length > cap) := by omega
  simp only [Tunnel.writePacket, hg, hcur, hc, aeadSeal_length, mkDataPacket,
    reduceIte, if_neg, if_false]

theorem Tunnel.readPacket_success (t : Tunnel) (s : Session) (idx ctr : Nat)
    (pt : List Nat) (cap : Nat)
    (hlook : t.table.lookup idx = some s)
    (hsize : DATA_OVERHEAD + pt.length ≤ MAX_WIREGUARD_PACKET_SIZE)
    (hbytes : ∀ b ∈ pt, b < 256)
    (hchk : s.replay.check ctr = true)
    (hcap : pt.length ≤ cap)
    (hv : ipVersion pt = 4 ∨ ipVersion pt = 6) :
    t.readPacket (mkDataPacket s.recvKey idx ctr pt) cap =
      ({ t with
          table := t.table.store { s with replay := s.replay.accept ctr },
          rxBytes := t.rxBytes + (DATA_OVERHEAD + pt.length) },
       ⟨if ipVersion pt = 4 then .WRITE_TO_TUNNEL_IPV4 else .WRITE_TO_TUNNEL_IPV6,
        pt.length⟩,
       pt) := by
  have hg : ¬ (DATA_OVERHEAD + pt.length > MAX_WIREGUARD_PACKET_SIZE) := by omega
  have hc2 : ¬ (cap < pt.length) := by omega
  rcases hv with hv | hv
  · simp only [Tunnel.readPacket, mkDataPacket, WirePacket.wireSize, aeadSeal_length,
      hg, hlook, aeadOpen_aeadSeal s.recvKey ctr pt hbytes, hchk, hc2, hv,
      reduceIte, if_neg, if_false, Bool.true_eq_false]
  · have hv4 : ¬ (ipVersion pt = 4) := by omega
    simp only [Tunnel.readPacket, mkDataPacket, WirePacket.wireSize, aeadSeal_length,
      hg, hlook, aeadOpen_aeadSeal s.recvKey ctr pt hbytes, hchk, hc2, hv, hv4,
      reduceIte, if_neg, if_false, Bool.true_eq_false]
    norm_num

theorem Tunnel.readPacket_malformed (t : Tunnel) (sz cap : Nat) :
    (t.readPacket (.malformed sz) cap).2.1.op = .WIREGUARD_DONE := by
  unfold Tunnel.readPacket
  by_cases hg : (WirePacket.malformed sz).wireSize > MAX_WIREGUARD_PACKET_SIZE
  · simp [hg]
  · simp [hg]

theorem Tunnel.readPacket_unknown (t : Tunnel) (ridx ctr tg cap : Nat) (ct : List Nat)
    (h : t.table.lookup ridx = none) :
    (t.readPacket (.data ridx ctr ct tg) cap).2.1.op = .WIREGUARD_DONE := by
  unfold Tunnel.readPacket
  by_cases hg : (WirePacket.data ridx ctr ct tg).wireSize > MAX_WIREGUARD_PACKET_SIZE
  · simp [hg]
  · simp [hg, h]

theorem Tunnel.readPacket_auth_fail (t : Tunnel) (s : Session)
    (ridx ctr tg cap : Nat) (ct : List Nat)
    (hlook : t.table.lookup ridx = some s)
    (hopen : aeadOpen s.recvKey ctr ct tg = none) :
    (t.readPacket (.data ridx ctr ct tg) cap).2.1.op = .WIREGUARD_DONE := by
  unfold Tunnel.readPacket
  by_cases hg : (WirePacket.data ridx ctr ct tg).wireSize > MAX_WIREGUARD_PACKET_SIZE
  · simp [hg]
  · simp [hg, hlook, hopen]

theorem Tunnel.readPacket_replay_reject (t : Tunnel) (s : Session)
    (ridx ctr tg cap : Nat) (ct : List Nat)
    (hlook : t.table.lookup ridx = some s)
    (hchk : s.replay.check ctr = false) :
    (t.readPacket (.data ridx ctr ct tg) cap).2.1.op = .WIREGUARD_DONE := by
  unfold Tunnel.readPacket
  by_cases hg : (WirePacket.data ridx ctr ct tg).wireSize > MAX_WIREGUARD_PACKET_SIZE
  · simp [hg]
  · cases hop : aeadOpen s.recvKey ctr ct tg with
    | none => simp [hg, hlook, hop]
    | some pt => simp [hg, hlook, hop, hchk]

theorem Tunnel.readPacket_buffer_error (t : Tunnel) (s : Session)
    (ridx ctr tg cap : Nat) (ct pt : List Nat)
    (hsz : ¬ ((WirePacket.data ridx ctr ct tg).wireSize > MAX_WIREGUARD_PACKET_SIZE))
    (hlook : t.table.lookup ridx = some s)
    (hopen : aeadOpen s.recvKey ctr ct tg = some pt)
    (hchk : s.replay.check ctr = true)
    (hcap : cap < pt.length) :
    (t.readPacket (.data ridx ctr ct tg) cap).2.1.op = .WIREGUARD_ERROR := by
  unfold Tunnel.readPacket
  simp [hsz, hlook, hopen, hchk, hcap]

theorem Tunnel.readPacket_deliver_inv (t : Tunnel) (p : WirePacket) (cap : Nat)
    (h : (t.readPacket p cap).2.1.op = .WRITE_TO_TUNNEL_IPV4 ∨
         (t.readPacket p cap).2.1.op = .WRITE_TO_TUNNEL_IPV6) :
    ∃ ridx ctr ct tg s pt,
      p = .data ridx ctr ct tg ∧
      ¬ (p.wireSize > MAX_WIREGUARD_PACKET_SIZE) ∧
      t.table.lookup ridx = some s ∧
      aeadOpen s.recvKey ctr ct tg = some pt ∧
      s.replay.check ctr = true ∧
      ¬ (cap < pt.length) ∧
      (t.readPacket p cap).1 =
        { t with table := t.table.store { s with replay := s.replay.accept ctr },
                 rxBytes := t.rxBytes + (DATA_OVERHEAD + ct.length) } ∧
      (t.readPacket p cap).2.2 = pt := by
  by_cases hg : p.wireSize > MAX_WIREGUARD_PACKET_SIZE
  · simp [Tunnel.readPacket, hg] at h
  · cases p with
    | malformed sz => simp [Tunnel.readPacket, hg] at h
    | data ridx ctr ct tg =>
        cases hlk : t.table.lookup ridx with
        | none => simp [Tunnel.readPacket, hg, hlk] at h
        | some s =>
            cases hop : aeadOpen s.recvKey ctr ct tg with
            | none => simp [Tunnel.readPacket, hg, hlk, hop] at h
            | some pt =>
                by_cases hch : s.replay.check ctr = false
                · simp [Tunnel.readPacket, hg, hlk, hop, hch] at h
                · have hchk : s.replay.check ctr = true := by
                    cases hb : s.replay.check ctr
                    · exact absurd hb hch
                    · rfl
                  by_cases hcl : cap < pt.length
                  · simp [Tunnel.readPacket, hg, hlk, hop, hchk, hcl] at h
                  · by_cases hv4 : ipVersion pt = 4
                    · refine ⟨ridx, ctr, ct, tg, s, pt, rfl, hg, hlk, hop, hchk, hcl, ?_, ?_⟩
                      · simp [Tunnel.readPacket, hg, hlk, hop, hchk, hcl, hv4]
                      · simp [Tunnel.readPacket, hg, hlk, hop, hchk, hcl, hv4]
                    · by_cases hv6 : ipVersion pt = 6
                      · refine ⟨ridx, ctr, ct, tg, s, pt, rfl, hg, hlk, hop, hchk, hcl, ?_, ?_⟩
                        · simp [Tunnel.readPacket, hg, hlk, hop, hchk, hcl, hv4, hv6]
                        · simp [Tunnel.readPacket, hg, hlk, hop, hchk, hcl, hv4, hv6]
                      · simp [Tunnel.readPacket, hg, hlk, hop, hchk, hcl, hv4, hv6] at h

theorem Tunnel.readPacket_error_inv (t : Tunnel) (p : WirePacket) (cap : Nat)
    (h : (t.readPacket p cap).2.1.op = .WIREGUARD_ERROR) :
    ∃ ridx ctr ct tg s pt,
      p = .data ridx ctr ct tg ∧
      t.table.lookup ridx = some s ∧
      aeadOpen s.recvKey ctr ct tg = some pt ∧
      s.replay.check ctr = true ∧
      cap < pt.length := by
  by_cases hg : p.wireSize > MAX_WIREGUARD_PACKET_SIZE
  · simp [Tunnel.readPacket, hg] at h
  · cases p with
    | malformed sz => simp [Tunnel.readPacket, hg] at h
    | data ridx ctr ct tg =>
        cases hlk : t.table.lookup ridx with
        | none => simp [Tunnel.readPacket, hg, hlk] at h
        | some s =>
            cases hop : aeadOpen s.recvKey ctr ct tg with
            | none => simp [Tunnel.readPacket, hg, hlk, hop] at h
            | some pt =>
                by_cases hch : s.replay.check ctr = false
                · simp [Tunnel.readPacket, hg, hlk, hop, hch] at h
                · have hchk : s.replay.check ctr = true := by
                    cases hb : s.replay.check ctr
                    · exact absurd hb hch
                    · rfl
                  by_cases hcl : cap < pt.length
                  · exact ⟨ridx, ctr, ct, tg, s, pt, rfl, hlk, hop, hchk, hcl⟩
                  · by_cases hv4 : ipVersion pt = 4
                    · simp [Tunnel.readPacket, hg, hlk, hop, hchk, hcl, hv4] at h
                    · by_cases hv6 : ipVersion pt = 6
                      · simp [Tunnel.readPacket, hg, hlk, hop, hchk, hcl, hv4, hv6] at h
                      · simp [Tunnel.readPacket, hg, hlk, hop, hchk, hcl, hv4, hv6] at h

theorem Tunnel.writePacket_size_le (t : Tunnel) (src : List Nat) (cap : Nat) :
    (t.writePacket src cap).2.1.size ≤ MAX_WIREGUARD_PACKET_SIZE := by
  unfold Tunnel.writePacket
  by_cases hg : DATA_OVERHEAD + src.length > MAX_WIREGUARD_PACKET_SIZE
  · simp [hg]
  · cases hc : t.table.current with
    | none => simp [hg, hc]
    | some s =>
        by_cases hcap : DATA_OVERHEAD + src.length > cap
        · simp [hg, hc, hcap]
        · simp only [hg, hc, hcap, aeadSeal_length, reduceIte, if_false]
          try simp [aeadSeal_length]
          omega

theorem Tunnel.writePacket_packet_size (t : Tunnel) (src : List Nat) (cap : Nat)
    (p : WirePacket) (h : (t.writePacket src cap).2.2 = some p) :
    p.wireSize ≤ MAX_WIREGUARD_PACKET_SIZE := by
  unfold Tunnel.writePacket at h
  by_cases hg : DATA_OVERHEAD + src.length > MAX_WIREGUARD_PACKET_SIZE
  · simp [hg] at h
  · cases hc : t.table.current with
    | none => simp [hg, hc] at h
    | some s =>
        by_cases hcap : DATA_OVERHEAD + src.length > cap
        · simp [hg, hc, hcap] at h
        · simp only [hg, hc, hcap, reduceIte, if_false] at h
          simp at h
          rw [← h]
          simp [WirePacket.wireSize, aeadSeal_length]
          omega

theorem Tunnel.readPacket_size_le (t : Tunnel) (p : WirePacket) (cap : Nat) :
    (t.readPacket p cap).2.1.size ≤ MAX_WIREGUARD_PACKET_SIZE := by
  by_cases hg : p.wireSize > MAX_WIREGUARD_PACKET_SIZE
  · simp [Tunnel.readPacket, hg]
  · cases p with
    | malformed sz => simp [Tunnel.readPacket, hg]
    | data ridx ctr ct tg =>
        cases hlk : t.table.lookup ridx with
        | none => simp [Tunnel.readPacket, hg, hlk]
        | some s =>
            cases hop : aeadOpen s.recvKey ctr ct tg with
            | none => simp [Tunnel.readPacket, hg, hlk, hop]
            | some pt =>
                have hlen : pt.length = ct.length := aeadOpen_length _ _ _ _ _ hop
                have hctl : ct.length ≤ MAX_WIREGUARD_PACKET_SIZE := by
                  simp [WirePacket.wireSize] at hg
                  omega
                by_cases hch : s.replay.check ctr = false
                · simp [Tunnel.readPacket, hg, hlk, hop, hch]
                · have hchk : s.replay.check ctr = true := by
                    cases hb : s.replay.check ctr
                    · exact absurd hb hch
                    · rfl
                  by_cases hcl : cap < pt.length
                  · simp [Tunnel.readPacket, hg, hlk, hop, hchk, hcl]
                  · by_cases hv4 : ipVersion pt = 4
                    · simp [Tunnel.readPacket, hg, hlk, hop, hchk, hcl, hv4]
                      omega
                    · by_cases hv6 : ipVersion pt = 6
                      · simp [Tunnel.readPacket, hg, hlk, hop, hchk, hcl, hv4, hv6]
                        omega
                      · simp [Tunnel.readPacket, hg, hlk, hop, hchk, hcl, hv4, hv6]

theorem Tunnel.tickRun_size_le (t : Tunnel) (cap : Nat) :
    (t.tickRun cap).2.size ≤ MAX_WIREGUARD_PACKET_SIZE := by
  unfold Tunnel.tickRun
  cases hc : t.table.current with
  | none =>
      by_cases hcap : cap < HANDSHAKE_INIT_SIZE
      · simp [hcap]
      · rw [if_neg hcap]
        simp [HANDSHAKE_INIT_SIZE, MAX_WIREGUARD_PACKET_SIZE]
  | some s => simp

theorem Tunnel.forceHandshakeRun_size_le (t : Tunnel) (cap : Nat) :
    (t.forceHandshakeRun cap).2.size ≤ MAX_WIREGUARD_PACKET_SIZE := by
  unfold Tunnel.forceHandshakeRun
  by_cases hcap : cap < HANDSHAKE_INIT_SIZE
  · simp [hcap]
  · rw [if_neg hcap]
    simp [HANDSHAKE_INIT_SIZE, MAX_WIREGUARD_PACKET_SIZE]

theorem Tunnel.writePacket_bytes_mono (t : Tunnel) (src : List Nat) (cap : Nat) :
    t.txBytes ≤ (t.writePacket src cap).1.txBytes ∧
    t.rxBytes ≤ (t.writePacket src cap).1.rxBytes := by
  unfold Tunnel.writePacket
  by_cases hg : DATA_OVERHEAD + src.length > MAX_WIREGUARD_PACKET_SIZE
  · simp [hg]
  · cases hc : t.table.current with
    | none => simp [hg, hc]
    | some s =>
        by_cases hcap : DATA_OVERHEAD + src.length > cap
        · simp [hg, hc, hcap]
        · simp [hg, hc, hcap]

theorem Tunnel.readPacket_bytes_mono (t : Tunnel) (p : WirePacket) (cap : Nat) :
    t.txBytes ≤ (t.readPacket p cap).1.txBytes ∧
    t.rxBytes ≤ (t.readPacket p cap).1.rxBytes := by
  by_cases hg : p.wireSize > MAX_WIREGUARD_PACKET_SIZE
  · simp [Tunnel.readPacket, hg]
  · cases p with
    | malformed sz => simp [Tunnel.readPacket, hg]
    | data ridx ctr ct tg =>
        cases hlk : t.table.lookup ridx with
        | none => simp [Tunnel.readPacket, hg, hlk]
        | some s =>
            cases hop : aeadOpen s.recvKey ctr ct tg with
            | none => simp [Tunnel.readPacket, hg, hlk, hop]
            | some pt =>
                by_cases hch : s.replay.check ctr = false
                · simp [Tunnel.readPacket, hg, hlk, hop, hch]
                · have hchk : s.replay.check ctr = true := by
                    cases hb : s.replay.check ctr
                    · exact absurd hb hch
                    · rfl
                  by_cases hcl : cap < pt.length
                  · simp [Tunnel.readPacket, hg, hlk, hop, hchk, hcl]
                  · by_cases hv4 : ipVersion pt = 4
                    · simp [Tunnel.readPacket, hg, hlk, hop, hchk, hcl, hv4]
                    · by_cases hv6 : ipVersion pt = 6
                      · simp [Tunnel.readPacket, hg, hlk, hop, hchk, hcl, hv4, hv6]
                      · simp [Tunnel.readPacket, hg, hlk, hop, hchk, hcl, hv4, hv6]

theorem Tunnel.step_bytes_mono (t : Tunnel) (op : HostOp) :
    t.txBytes ≤ (t.step op).txBytes ∧ t.rxBytes ≤ (t.step op).rxBytes := by
  cases op with
  | write src cap => exact t.writePacket_bytes_mono src cap
  | read p cap => exact t.readPacket_bytes_mono p cap
  | tick cap =>
      unfold Tunnel.step Tunnel.tickRun
      cases hc : t.table.current with
      | none =>
          by_cases hcap : cap < HANDSHAKE_INIT_SIZE
          · simp [hcap]
          · simp [hcap]
      | some s => simp
  | forceHandshake cap =>
      unfold Tunnel.step Tunnel.forceHandshakeRun
      by_cases hcap : cap < HANDSHAKE_INIT_SIZE
      · simp [hcap]
      · simp [hcap]

theorem Tunnel.run_bytes_mono (t : Tunnel) (ops : List HostOp) :
    t.txBytes ≤ (t.run ops).txBytes ∧ t.rxBytes ≤ (t.run ops).rxBytes := by
  induction ops generalizing t with
  | nil => simp [Tunnel.run]
  | cons op rest ih =>
      have h1 := t.step_bytes_mono op
      have h2 := ih (t.step op)
      unfold Tunnel.run at h2 ⊢
      simp only [List.foldl_cons]
      exact ⟨le_trans h1.1 h2.1, le_trans h1.2 h2.2⟩

theorem Tunnel.writePacket_none_state (t : Tunnel) (src : List Nat) (cap : Nat)
    (h : (t.writePacket src cap).2.2 = none) : (t.writePacket src cap).1 = t := by
  unfold Tunnel.writePacket at h ⊢
  by_cases hg : DATA_OVERHEAD + src.length > MAX_WIREGUARD_PACKET_SIZE
  · simp [hg]
  · cases hc : t.table.current with
    | none => simp [hg, hc]
    | some s =>
        by_cases hcap : DATA_OVERHEAD + src.length > cap
        · simp [hg, hc, hcap]
        · simp [hg, hc, hcap] at h

theorem Tunnel.writePacket_some_counter (t : Tunnel) (src : List Nat) (cap : Nat)
    (p : WirePacket) (h : (t.writePacket src cap).2.2 = some p) :
    p.counter = t.currentCounter + 1 ∧
    (t.writePacket src cap).1.currentCounter = t.currentCounter + 1 := by
  unfold Tunnel.writePacket at h ⊢
  by_cases hg : DATA_OVERHEAD + src.length > MAX_WIREGUARD_PACKET_SIZE
  · simp [hg] at h
  · cases hc : t.table.current with
    | none => simp [hg, hc] at h
    | some s =>
        by_cases hcap : DATA_OVERHEAD + src.length > cap
        · simp [hg, hc, hcap] at h
        · simp only [hg, hc, hcap, reduceIte, if_false] at h
          simp at h
          constructor
          · rw [← h]
            simp [WirePacket.counter, Tunnel.currentCounter, hc]
          · simp [hg, hc, hcap, Tunnel.currentCounter, SessionTable.store, slotStore]

theorem Tunnel.writeSeq_counters_gt (srcs : List (List Nat)) :
    ∀ (t : Tunnel) (cap : Nat) (p : WirePacket),
      p ∈ (t.writeSeq srcs cap).2 → t.currentCounter < p.counter := by
  induction srcs with
  | nil =>
      intro t cap p hp
      simp [Tunnel.writeSeq] at hp
  | cons src rest ih =>
      intro t cap p hp
      unfold Tunnel.writeSeq at hp
      cases hw : (t.writePacket src cap).2.2 with
      | none =>
          simp only [hw] at hp
          have hst := t.writePacket_none_state src cap hw
          have := ih (t.writePacket src cap).1 cap p hp
          rw [hst] at this
          exact this
      | some p0 =>
          simp only [hw, List.mem_cons] at hp
          have hcnt := t.writePacket_some_counter src cap p0 hw
          cases hp with
          | inl hpe =>
              rw [hpe, hcnt.1]
              omega
          | inr hpm =>
              have := ih (t.writePacket src cap).1 cap p hpm
              rw [hcnt.2] at this
              omega

theorem Tunnel.writeSeq_counters_pairwise (srcs : List (List Nat)) :
    ∀ (t : Tunnel) (cap : Nat),
      List.Pairwise (· < ·)
        (((t.writeSeq srcs cap).2).map WirePacket.counter) := by
  induction srcs with
  | nil => intro t cap; simp [Tunnel.writeSeq]
  | cons src rest ih =>
      intro t cap
      unfold Tunnel.writeSeq
      cases hw : (t.writePacket src cap).2.2 with
      | none =>
          simp only [hw]
          exact ih (t.writePacket src cap).1 cap
      | some p0 =>
          simp only [hw, List.map_cons, List.pairwise_cons]
          constructor
          · intro c hc
            simp only [List.mem_map] at hc
            obtain ⟨q, hq, hqc⟩ := hc
            have hgt := Tunnel.writeSeq_counters_gt rest (t.writePacket src cap).1 cap q hq
            have hcnt := t.writePacket_some_counter src cap p0 hw
            rw [hcnt.2] at hgt
            rw [← hqc, hcnt.1]
            omega
          · exact ih (t.writePacket src cap).1 cap

theorem ReplayState.check_true (st : ReplayState) (c : Nat)
    (h1 : st.highest < c + REPLAY_WINDOW_SIZE) (h2 : c ∉ st.seen) :
    st.check c = true := by
  simp [ReplayState.check, h1, h2]

theorem Tunnel.readSeq_window_all_deliver (key idx cap lo : Nat) :
    ∀ (cps : List (Nat × List Nat)) (t : Tunnel) (s : Session),
      t.table.current = some s →
      t.table.previous = none →
      s.localIdx = idx →
      s.recvKey = key →
      (cps.map Prod.fst).Nodup →
      (∀ cp ∈ cps,
         lo ≤ cp.1 ∧ cp.1 < lo + REPLAY_WINDOW_SIZE ∧
         s.replay.highest < cp.1 + REPLAY_WINDOW_SIZE ∧
         cp.1 ∉ s.replay.seen ∧
         (∀ b ∈ cp.2, b < 256) ∧
         (ipVersion cp.2 = 4 ∨ ipVersion cp.2 = 6) ∧
         cp.2.length ≤ cap ∧
         DATA_OVERHEAD + cp.2.length ≤ MAX_WIREGUARD_PACKET_SIZE) →
      ∀ r ∈ (t.readSeq (cps.map (fun cp => mkDataPacket key idx cp.1 cp.2)) cap).2,
        r.op = .WRITE_TO_TUNNEL_IPV4 ∨ r.op = .WRITE_TO_TUNNEL_IPV6 := by
  intro cps
  induction cps with
  | nil =>
      intro t s _ _ _ _ _ _ r hr
      simp [Tunnel.readSeq] at hr
  | cons cp0 rest ih =>
      intro t s hcur hprev hidx hkey hnd hall r hr
      obtain ⟨c0, pt0⟩ := cp0
      obtain ⟨hlo0, hhi0, hwin0, hseen0, hbytes0, hver0, hcap0, hmax0⟩ :=
        hall (c0, pt0) (by simp)
      have hlook : t.table.lookup idx = some s := by
        rw [← hidx]
        exact SessionTable.lookup_current t.table s hcur
      have hchk : s.replay.check c0 = true :=
        ReplayState.check_true s.replay c0 hwin0 hseen0
      have hsucc := Tunnel.readPacket_success t s idx c0 pt0 cap hlook hmax0
        hbytes0 hchk hcap0 hver0
      have hmk : mkDataPacket key idx c0 pt0 = mkDataPacket s.recvKey idx c0 pt0 := by
        rw [hkey]
      simp only [List.map_cons] at hr
      unfold Tunnel.readSeq at hr
      simp only [hmk, hsucc, List.mem_cons] at hr
      simp only [List.map_cons, List.nodup_cons] at hnd
      cases hr with
      | inl hr0 =>
          rw [hr0]
          rcases hver0 with hv | hv
          · left; simp [hv]
          · right; simp [hv]
      | inr hrest =>
          refine ih
            { t with
                table := t.table.store { s with replay := s.replay.accept c0 },
                rxBytes := t.rxBytes + (DATA_OVERHEAD + pt0.length) }
            { s with replay := s.replay.accept c0 }
            ?_ ?_ ?_ ?_ ?_ ?_ r hrest
          · simp [SessionTable.store, slotStore, hcur]
          · simp [SessionTable.store, slotStore, hprev]
          · exact hidx
          · exact hkey
          · exact hnd.2
          · intro cp hcp
            obtain ⟨hlo, hhi, hwin, hseen, hbytes, hver, hcap2, hmax2⟩ :=
              hall cp (by simp [hcp])
            refine ⟨hlo, hhi, ?_, ?_, hbytes, hver, hcap2, hmax2⟩
            · simp only [ReplayState.accept_highest]
              omega
            · intro hmem
              rcases ReplayState.mem_accept_seen s.replay c0 cp.1 hmem with he | hin
              · apply hnd.1
                rw [← he]
                exact List.mem_map_of_mem Prod.fst hcp
              · exact hseen hin

/-! ## Claim theorems -/

/-- Claim C1: for every plaintext P and a completed session shared by two
peer engines (the receiver holds the sender's session under the index the
sender stamps, with the matching key, and the counter passes its replay
window), passing P through the sending engine's write and feeding the
produced wire packet to the receiving engine's read delivers exactly the
original bytes P. -/
theorem wg_roundtrip_decrypt_encrypt
    (tA tB : Tunnel) (sA sB : Session) (P : List Nat) (capA capB : Nat)
    (hA : tA.table.current = some sA)
    (hB : tB.table.lookup sA.peerIdx = some sB)
    (hkey : sB.recvKey = sA.sendKey)
    (hchk : sB.replay.check (sA.sendCounter + 1) = true)
    (hbytes : ∀ b ∈ P, b < 256)
    (hv : ipVersion P = 4 ∨ ipVersion P = 6)
    (hmax : DATA_OVERHEAD + P.length ≤ MAX_WIREGUARD_PACKET_SIZE)
    (hcapA : DATA_OVERHEAD + P.length ≤ capA)
    (hcapB : P.length ≤ capB) :
    ∃ p : WirePacket,
      (tA.writePacket P capA).2.2 = some p ∧
      ((tB.readPacket p capB).2.1.op = .WRITE_TO_TUNNEL_IPV4 ∨
       (tB.readPacket p capB).2.1.op = .WRITE_TO_TUNNEL_IPV6) ∧
      (tB.readPacket p capB).2.2 = P := by
  have hw := tA.writePacket_success sA P capA hA hmax hcapA
  have hmk : mkDataPacket sA.sendKey sA.peerIdx (sA.sendCounter + 1) P =
      mkDataPacket sB.recvKey sA.peerIdx (sA.sendCounter + 1) P := by
    rw [hkey]
  have hr := tB.readPacket_success sB sA.peerIdx (sA.sendCounter + 1) P capB
    hB hmax hbytes hchk hcapB hv
  refine ⟨mkDataPacket sA.sendKey sA.peerIdx (sA.sendCounter + 1) P,
    by rw [hw], ?_, ?_⟩
  · rw [hmk, hr]
    rcases hv with h4 | h6
    · left; simp [h4]
    · right; simp [h6]
  · rw [hmk, hr]

/-- Claim C2: protocol-expected rejections on read (malformed header,
unknown session index, authentication failure, replay) return the no-op
outcome WIREGUARD_DONE, never the error outcome; WIREGUARD_ERROR is
returned exactly for caller-contract violations — a null tunnel handle or a
destination buffer too small for an otherwise deliverable plaintext. -/
theorem wg_read_error_tiers :
    (∀ (p : WirePacket) (cap : Nat),
       (wireguard_read none p cap).2.1.op = .WIREGUARD_ERROR) ∧
    (∀ (t : Tunnel) (sz cap : Nat),
       (t.readPacket (.malformed sz) cap).2.1.op = .WIREGUARD_DONE) ∧
    (∀ (t : Tunnel) (ridx ctr tg cap : Nat) (ct : List Nat),
       t.table.lookup ridx = none →
       (t.readPacket (.data ridx ctr ct tg) cap).2.1.op = .WIREGUARD_DONE) ∧
    (∀ (t : Tunnel) (s : Session) (ridx ctr tg cap : Nat) (ct : List Nat),
       t.table.lookup ridx = some s →
       aeadOpen s.recvKey ctr ct tg = none →
       (t.readPacket (.data ridx ctr ct tg) cap).2.1.op = .WIREGUARD_DONE) ∧
    (∀ (t : Tunnel) (s : Session) (ridx ctr tg cap : Nat) (ct : List Nat),
       t.table.lookup ridx = some s →
       s.replay.check ctr = false →
       (t.readPacket (.data ridx ctr ct tg) cap).2.1.op = .WIREGUARD_DONE) ∧
    (∀ (t : Tunnel) (s : Session) (ridx ctr tg cap : Nat) (ct pt : List Nat),
       ¬ ((WirePacket.data ridx ctr ct tg).wireSize > MAX_WIREGUARD_PACKET_SIZE) →
       t.table.lookup ridx = some s →
       aeadOpen s.recvKey ctr ct tg = some pt →
       s.replay.check ctr = true →
       cap < pt.length →
       (t.readPacket (.data ridx ctr ct tg) cap).2.1.op = .WIREGUARD_ERROR) ∧
    (∀ (t : Tunnel) (p : WirePacket) (cap : Nat),
       (t.readPacket p cap).2.1.op = .WIREGUARD_ERROR →
       ∃ ridx ctr ct tg s pt,
         p = .data ridx ctr ct tg ∧
         t.table.lookup ridx = some s ∧
         aeadOpen s.recvKey ctr ct tg = some pt ∧
         s.replay.check ctr = true ∧
         cap < pt.length) := by
  refine ⟨?_, ?_, ?_, ?_, ?_, ?_, ?_⟩
  · intro p cap
    simp [wireguard_read]
  · intro t sz cap
    exact t.readPacket_malformed sz cap
  · intro t ridx ctr tg cap ct h
    exact t.readPacket_unknown ridx ctr tg cap ct h
  · intro t s ridx ctr tg cap ct h1 h2
    exact t.readPacket_auth_fail s ridx ctr tg cap ct h1 h2
  · intro t s ridx ctr tg cap ct h1 h2
    exact t.readPacket_replay_reject s ridx ctr tg cap ct h1 h2
  · intro t s ridx ctr tg cap ct pt h0 h1 h2 h3 h4
    exact t.readPacket_buffer_error s ridx ctr tg cap ct pt h0 h1 h2 h3 h4
  · intro t p cap h
    exact t.readPacket_error_inv p cap h

/-- Claim C3: re-submitting a wire packet already accepted by read yields the
no-op outcome and no second delivery; and a set of data packets whose
counters all lie within one replay window, with pairwise distinct counters,
is accepted exactly once each, in any arrival order. -/
theorem wg_replay_and_reorder :
    (∀ (t : Tunnel) (p : WirePacket) (cap : Nat),
       ((t.readPacket p cap).2.1.op = .WRITE_TO_TUNNEL_IPV4 ∨
        (t.readPacket p cap).2.1.op = .WRITE_TO_TUNNEL_IPV6) →
       ((t.readPacket p cap).1.readPacket p cap).2.1.op = .WIREGUARD_DONE) ∧
    (∀ (key idx cap lo : Nat) (cps : List (Nat × List Nat))
       (t : Tunnel) (s : Session),
       t.table.current = some s →
       t.table.previous = none →
       s.localIdx = idx →
       s.recvKey = key →
       (cps.map Prod.fst).Nodup →
       (∀ cp ∈ cps,
          lo ≤ cp.1 ∧ cp.1 < lo + REPLAY_WINDOW_SIZE ∧
          s.replay.highest < cp.1 + REPLAY_WINDOW_SIZE ∧
          cp.1 ∉ s.replay.seen ∧
          (∀ b ∈ cp.2, b < 256) ∧
          (ipVersion cp.2 = 4 ∨ ipVersion cp.2 = 6) ∧
          cp.2.length ≤ cap ∧
          DATA_OVERHEAD + cp.2.length ≤ MAX_WIREGUARD_PACKET_SIZE) →
       ∀ r ∈ (t.readSeq (cps.map (fun cp => mkDataPacket key idx cp.1 cp.2)) cap).2,
         r.op = .WRITE_TO_TUNNEL_IPV4 ∨ r.op = .WRITE_TO_TUNNEL_IPV6) := by
  constructor
  · intro t p cap h
    obtain ⟨ridx, ctr, ct, tg, s, pt, hp, hg, hlk, hop, hchk, hcl, hst, hout⟩ :=
      t.readPacket_deliver_inv p cap h
    rw [hst, hp]
    apply Tunnel.readPacket_replay_reject _
      { s with replay := s.replay.accept ctr } ridx ctr tg cap ct
    · exact SessionTable.lookup_store_self t.table s _ ridx hlk rfl
    · exact ReplayState.accept_check_self s.replay ctr
  · intro key idx cap lo cps t s
    exact Tunnel.readSeq_window_all_deliver key idx cap lo cps t s

/-- Claim C4 (counterexample): contrary to the claim that each of the four
driving operations takes a source buffer (nullable for tick and
force_handshake), the signatures of wireguard_tick and
wireguard_force_handshake declared in wireguard_ffi.h contain no
source-buffer parameter at all. -/
theorem wg_tick_force_handshake_no_source_buffer :
    hasSourceBuffer wireguard_tick_decl = false ∧
    hasSourceBuffer wireguard_force_handshake_decl = false := by
  decide

/-- Claim C4 (amended): write and read each take a source buffer with its
size; tick and force_handshake take no source buffer at all; all four take
a destination buffer with its capacity and return struct wireguard_result,
an action tag together with a byte count. -/
theorem wg_op_signatures :
    hasSourceBufferWithSize wireguard_write_decl.params = true ∧
    hasSourceBufferWithSize wireguard_read_decl.params = true ∧
    hasSourceBuffer wireguard_tick_decl = false ∧
    hasSourceBuffer wireguard_force_handshake_decl = false ∧
    hasDestBufferWithCapacity wireguard_write_decl.params = true ∧
    hasDestBufferWithCapacity wireguard_read_decl.params = true ∧
    hasDestBufferWithCapacity wireguard_tick_decl.params = true ∧
    hasDestBufferWithCapacity wireguard_force_handshake_decl.params = true ∧
    wireguard_write_decl.ret = CType.wireguardResultStruct ∧
    wireguard_read_decl.ret = CType.wireguardResultStruct ∧
    wireguard_tick_decl.ret = CType.wireguardResultStruct ∧
    wireguard_force_handshake_decl.ret = CType.wireguardResultStruct := by
  decide

/-- Claim C5: the byte count returned by write, read, tick and
force_handshake never exceeds MAX_WIREGUARD_PACKET_SIZE; every wire packet
write produces and every wire packet read accepts is bounded by
MAX_WIREGUARD_PACKET_SIZE. -/
theorem wg_packet_size_bound :
    (∀ (t : Option Tunnel) (src : List Nat) (cap : Nat),
       (wireguard_write t src cap).2.1.size ≤ MAX_WIREGUARD_PACKET_SIZE) ∧
    (∀ (t : Option Tunnel) (p : WirePacket) (cap : Nat),
       (wireguard_read t p cap).2.1.size ≤ MAX_WIREGUARD_PACKET_SIZE) ∧
    (∀ (t : Option Tunnel) (cap : Nat),
       (wireguard_tick t cap).2.size ≤ MAX_WIREGUARD_PACKET_SIZE) ∧
    (∀ (t : Option Tunnel) (cap : Nat),
       (wireguard_force_handshake t cap).2.size ≤ MAX_WIREGUARD_PACKET_SIZE) ∧
    (∀ (t : Tunnel) (src : List Nat) (cap : Nat) (p : WirePacket),
       (t.writePacket src cap).2.2 = some p →
       p.wireSize ≤ MAX_WIREGUARD_PACKET_SIZE) ∧
    (∀ (t : Tunnel) (p : WirePacket) (cap : Nat),
       ((t.readPacket p cap).2.1.op = .WRITE_TO_TUNNEL_IPV4 ∨
        (t.readPacket p cap).2.1.op = .WRITE_TO_TUNNEL_IPV6) →
       p.wireSize ≤ MAX_WIREGUARD_PACKET_SIZE) := by
  refine ⟨?_, ?_, ?_, ?_, ?_, ?_⟩
  · intro t src cap
    cases t with
    | none => simp [wireguard_write]
    | some tn => simpa [wireguard_write] using tn.writePacket_size_le src cap
  · intro t p cap
    cases t with
    | none => simp [wireguard_read]
    | some tn => simpa [wireguard_read] using tn.readPacket_size_le p cap
  · intro t cap
    cases t with
    | none => simp [wireguard_tick]
    | some tn => simpa [wireguard_tick] using tn.tickRun_size_le cap
  · intro t cap
    cases t with
    | none => simp [wireguard_force_handshake]
    | some tn => simpa [wireguard_force_handshake] using tn.forceHandshakeRun_size_le cap
  · intro t src cap p h
    exact t.writePacket_packet_size src cap p h
  · intro t p cap h
    obtain ⟨_, _, _, _, _, _, _, hg, _⟩ := t.readPacket_deliver_inv p cap h
    omega

/-- Claim C6: over any sequence of write calls, the counters stamped on the
successfully produced wire packets are strictly increasing in order of
production, and in particular no counter value is ever reused. -/
theorem wg_send_counter_strict_mono :
    ∀ (t : Tunnel) (srcs : List (List Nat)) (cap : Nat),
      List.Pairwise (· < ·)
        (((t.writeSeq srcs cap).2).map WirePacket.counter) ∧
      (((t.writeSeq srcs cap).2).map WirePacket.counter).Nodup := by
  intro t srcs cap
  have h := Tunnel.writeSeq_counters_pairwise srcs t cap
  exact ⟨h, h.imp (fun hlt => Nat.ne_of_lt hlt)⟩

/-- Claim C7: check_base64_encoded_x25519_key returns nonzero exactly when
the string base64-decodes to a 32-byte key, and returns only 0 or 1; it is
a pure function of the string alone. -/
theorem wg_check_key_validation :
    ∀ (s : List Char),
      (check_base64_encoded_x25519_key s ≠ 0 ↔
        ∃ k, decodeB64 s = some k ∧ k.length = 32) ∧
      (check_base64_encoded_x25519_key s = 0 ∨
       check_base64_encoded_x25519_key s = 1) := by
  intro s
  unfold check_base64_encoded_x25519_key
  cases hd : decodeB64 s with
  | none => simp
  | some k =>
      by_cases hl : k.length = 32
      · simp [hl]
      · simp [hl]

/-- Claim C8: across any sequence of engine operations, the cumulative
tx_bytes and rx_bytes counters reported by wireguard_stats never
decrease. -/
theorem wg_stats_monotone :
    ∀ (t : Tunnel) (ops : List HostOp),
      (wireguard_stats (some t)).tx_bytes ≤
        (wireguard_stats (some (t.run ops))).tx_bytes ∧
      (wireguard_stats (some t)).rx_bytes ≤
        (wireguard_stats (some (t.run ops))).rx_bytes := by
  intro t ops
  have h := t.run_bytes_mono ops
  simpa [wireguard_stats, Tunnel.statsOf] using h

/-- Claim C9: the delivery action tags numerically encode the IP version
(WRITE_TO_TUNNEL_IPV4 = 4, WRITE_TO_TUNNEL_IPV6 = 6, WIREGUARD_DONE = 0),
and whenever read delivers plaintext the returned tag equals the delivered
packet's IP version. -/
theorem wg_result_tag_ip_version :
    ResultType.toNat .WRITE_TO_TUNNEL_IPV4 = 4 ∧
    ResultType.toNat .WRITE_TO_TUNNEL_IPV6 = 6 ∧
    ResultType.toNat .WIREGUARD_DONE = 0 ∧
    (∀ (t : Tunnel) (p : WirePacket) (cap : Nat),
      ((t.readPacket p cap).2.1.op = .WRITE_TO_TUNNEL_IPV4 →
        ipVersion (t.readPacket p cap).2.2 = 4) ∧
      ((t.readPacket p cap).2.1.op = .WRITE_TO_TUNNEL_IPV6 →
        ipVersion (t.readPacket p cap).2.2 = 6)) := by
  refine ⟨rfl, rfl, rfl, ?_⟩
  intro t p cap
  by_cases hg : p.wireSize > MAX_WIREGUARD_PACKET_SIZE
  · constructor <;> intro h <;> simp [Tunnel.readPacket, hg] at h
  · cases p with
    | malformed sz =>
        constructor <;> intro h <;> simp [Tunnel.readPacket, hg] at h
    | data ridx ctr ct tg =>
        cases hlk : t.table.lookup ridx with
        | none =>
            constructor <;> intro h <;> simp [Tunnel.readPacket, hg, hlk] at h
        | some s =>
            cases hop : aeadOpen s.recvKey ctr ct tg with
            | none =>
                constructor <;> intro h <;>
                  simp [Tunnel.readPacket, hg, hlk, hop] at h
            | some pt =>
                by_cases hch : s.replay.check ctr = false
                · constructor <;> intro h <;>
                    simp [Tunnel.readPacket, hg, hlk, hop, hch] at h
                · have hchk : s.replay.check ctr = true := by
                    cases hb : s.replay.check ctr
                    · exact absurd hb hch
                    · rfl
                  by_cases hcl : cap < pt.length
                  · constructor <;> intro h <;>
                      simp [Tunnel.readPacket, hg, hlk, hop, hchk, hcl] at h
                  · by_cases hv4 : ipVersion pt = 4
                    · constructor <;> intro h
                      · simp [Tunnel.readPacket, hg, hlk, hop, hchk, hcl, hv4, hv4]
                      · simp [Tunnel.readPacket, hg, hlk, hop, hchk, hcl, hv4] at h
                    · by_cases hv6 : ipVersion pt = 6
                      · constructor <;> intro h
                        · simp [Tunnel.readPacket, hg, hlk, hop, hchk, hcl, hv4,
                            hv6] at h
                        · simp [Tunnel.readPacket, hg, hlk, hop, hchk, hcl, hv4,
                            hv6]
                      · constructor <;> intro h <;>
                          simp [Tunnel.readPacket, hg, hlk, hop, hchk, hcl, hv4,
                            hv6] at h

/-- Claim C10: for every 32-byte x25519 key, the base64 string produced by
x25519_key_to_base64 passes check_base64_encoded_x25519_key (returns
nonzero). -/
theorem wg_encode_then_validate (k : x25519_key)
    (hlen : k.key.length = 32) (hbytes : ∀ b ∈ k.key, b < 256) :
    check_base64_encoded_x25519_key (x25519_key_to_base64 k) ≠ 0 := by
  unfold check_base64_encoded_x25519_key x25519_key_to_base64
  rw [decodeB64_encodeB64 k.key hbytes]
  simp [hlen]

/-! ## Witnesses -/

/-- Witness for C1 at the concrete peer pair and plaintext [69, 1, 2, 3]. -/
theorem wg_roundtrip_decrypt_encrypt_witness :
    ∃ p : WirePacket,
      (tunnelA.writePacket [69, 1, 2, 3] 1000).2.2 = some p ∧
      ((tunnelB.readPacket p 1000).2.1.op = .WRITE_TO_TUNNEL_IPV4 ∨
       (tunnelB.readPacket p 1000).2.1.op = .WRITE_TO_TUNNEL_IPV6) ∧
      (tunnelB.readPacket p 1000).2.2 = [69, 1, 2, 3] :=
  wg_roundtrip_decrypt_encrypt tunnelA tunnelB sessionA sessionB [69, 1, 2, 3]
    1000 1000 (by decide) (by decide) (by decide) (by decide) (by decide)
    (by decide) (by decide) (by decide) (by decide)

/-- Witness for C2 at concrete tunnels and packets covering each tier. -/
theorem wg_read_error_tiers_witness :
    (wireguard_read none samplePacket 1000).2.1.op = .WIREGUARD_ERROR ∧
    (emptyTunnel.readPacket (.malformed 5) 10).2.1.op = .WIREGUARD_DONE ∧
    (emptyTunnel.readPacket (.data 9 1 [1, 2] 0) 10).2.1.op = .WIREGUARD_DONE ∧
    (tunnelB.readPacket (.data 9 1 [1, 2] 0) 10).2.1.op = .WIREGUARD_DONE ∧
    (staleTunnel.readPacket (.data 9 1 [1, 2] 0) 10).2.1.op = .WIREGUARD_DONE ∧
    (tunnelB.readPacket samplePacket 0).2.1.op = .WIREGUARD_ERROR ∧
    (∃ ridx ctr ct tg s pt,
       samplePacket = .data ridx ctr ct tg ∧
       tunnelB.table.lookup ridx = some s ∧
       aeadOpen s.recvKey ctr ct tg = some pt ∧
       s.replay.check ctr = true ∧
       0 < pt.length) :=
  ⟨wg_read_error_tiers.1 samplePacket 1000,
   wg_read_error_tiers.2.1 emptyTunnel 5 10,
   wg_read_error_tiers.2.2.1 emptyTunnel 9 1 0 10 [1, 2] (by decide),
   wg_read_error_tiers.2.2.2.1 tunnelB sessionB 9 1 0 10 [1, 2]
     (by decide) (by decide),
   wg_read_error_tiers.2.2.2.2.1 staleTunnel ⟨9, 5, 200, 100, 0, ⟨200, []⟩⟩
     9 1 0 10 [1, 2] (by decide) (by decide),
   wg_read_error_tiers.2.2.2.2.2.1 tunnelB sessionB 9 1
     (aeadSeal 100 1 [69, 1, 2, 3]).2 0 (aeadSeal 100 1 [69, 1, 2, 3]).1
     [69, 1, 2, 3] (by decide) (by decide) (by decide) (by decide) (by decide),
   wg_read_error_tiers.2.2.2.2.2.2 tunnelB samplePacket 0 (by decide)⟩

/-- Witness for C3: re-reading the accepted sample packet is a no-op, and the
out-of-order counter set 2, 1, 3 is delivered, packet by packet. -/
theorem wg_replay_and_reorder_witness :
    ((tunnelB.readPacket samplePacket 1000).1.readPacket samplePacket
        1000).2.1.op = .WIREGUARD_DONE ∧
    ((⟨.WRITE_TO_TUNNEL_IPV4, 2⟩ : wireguard_result).op =
        .WRITE_TO_TUNNEL_IPV4 ∨
     (⟨.WRITE_TO_TUNNEL_IPV4, 2⟩ : wireguard_result).op =
        .WRITE_TO_TUNNEL_IPV6) :=
  ⟨wg_replay_and_reorder.1 tunnelB samplePacket 1000 (by decide),
   wg_replay_and_reorder.2 100 9 1000 1
     [(2, [69, 1]), (1, [69, 1]), (3, [69, 1])] tunnelB sessionB
     (by decide) (by decide) (by decide) (by decide) (by decide) (by decide)
     ⟨.WRITE_TO_TUNNEL_IPV4, 2⟩ (by decide)⟩

/-- Witness for C5 at the concrete produced and accepted sample packet. -/
theorem wg_packet_size_bound_witness :
    samplePacket.wireSize ≤ MAX_WIREGUARD_PACKET_SIZE ∧
    samplePacket.wireSize ≤ MAX_WIREGUARD_PACKET_SIZE :=
  ⟨wg_packet_size_bound.2.2.2.2.1 tunnelA [69, 1, 2, 3] 1000 samplePacket
     (by decide),
   wg_packet_size_bound.2.2.2.2.2 tunnelB samplePacket 1000 (by decide)⟩

/-- Witness for C7: the encoding of a concrete 32-byte key decodes back to
32 bytes. -/
theorem wg_check_key_validation_witness :
    ∃ k, decodeB64 (encodeB64 (List.replicate 32 7)) = some k ∧
      k.length = 32 :=
  (wg_check_key_validation (encodeB64 (List.replicate 32 7))).1.mp (by decide)

/-- Witness for C9: the sample packet is delivered with tag IPv4 and its
plaintext indeed has IP version 4. -/
theorem wg_result_tag_ip_version_witness :
    ipVersion (tunnelB.readPacket samplePacket 1000).2.2 = 4 :=
  (wg_result_tag_ip_version.2.2.2 tunnelB samplePacket 1000).1 (by decide)

/-- Witness for C10 at the concrete 32-byte key of all 7s. -/
theorem wg_encode_then_validate_witness :
    check_base64_encoded_x25519_key
      (x25519_key_to_base64 ⟨List.replicate 32 7⟩) ≠ 0 :=
  wg_encode_then_validate ⟨List.replicate 32 7⟩ (by decide) (by decide)

end Boringtun
